import Mathlib

/-!
Verification development for the KOTH seeding plugin
(src/KothSeedingPlugin.js).

The plugin's data lives in JSON documents, modelled here by `JVal`.
JavaScript objects are modelled as association lists of string keys in
insertion order; parsed JSON objects never contain duplicate keys, so
theorems that need key uniqueness take it as a hypothesis.
-/

/-- A JSON value, as manipulated by the plugin.  Numbers are modelled as
rationals: every numeric computation in the source (`lerp`, `Math.round`,
`toFixed(2)`) stays far enough from rounding boundaries on the ten levels
actually used that exact rational arithmetic agrees with IEEE doubles. -/
inductive JVal where
  | null : JVal
  | bool (b : Bool) : JVal
  | num (q : ℚ) : JVal
  | str (s : String) : JVal
  | arr (elems : List JVal) : JVal
  | obj (fields : List (String × JVal)) : JVal

/-- Property lookup on an object's field list (first occurrence, matching
JavaScript objects, which hold each key once). -/
def lookupKey : List (String × JVal) → String → Option JVal
  | [], _ => none
  | (k', v') :: rest, k => if k' = k then some v' else lookupKey rest k

/-- JavaScript property assignment `target[k] = v`: an existing key keeps
its position, a new key is appended at the end. -/
def setKey : List (String × JVal) → String → JVal → List (String × JVal)
  | [], k, v => [(k, v)]
  | (k', v') :: rest, k, v =>
      if k' = k then (k', v) :: rest else (k', v') :: setKey rest k v

/-- The keys of an object's field list. -/
def keysOf (t : List (String × JVal)) : List String := t.map Prod.fst

/-- JavaScript truthiness.  `null`, `false`, `0` and the empty string are
falsy; arrays and objects are always truthy. -/
def jTruthy : JVal → Bool
  | JVal.null => false
  | JVal.bool b => b
  | JVal.num q => decide (q ≠ 0)
  | JVal.str s => decide (s ≠ "")
  | JVal.arr _ => true
  | JVal.obj _ => true

/-- Strict equality `===` between two present values.  Primitives compare
by value; arrays and objects compare by reference, and two separately
constructed or parsed values are never the same reference, so the
object/array cases are `false` here. -/
def sEq : JVal → JVal → Bool
  | JVal.null, JVal.null => true
  | JVal.bool a, JVal.bool b => a = b
  | JVal.num a, JVal.num b => a = b
  | JVal.str a, JVal.str b => a = b
  | _, _ => false

/-- `true` on values whose `===` comparison is by value (everything except
arrays and objects). -/
def isPrimB : JVal → Bool
  | JVal.arr _ => false
  | JVal.obj _ => false
  | _ => true

/-- The `.name` property of a reward entry: `none` models `undefined`.
Property access on a primitive number, string or boolean yields
`undefined`; on `null` JavaScript throws a TypeError, so theorems about
the rewards merge assume entries are not `null`. -/
def entryName : JVal → Option JVal
  | JVal.obj fields => lookupKey fields "name"
  | _ => none

/-- The `.name` property when it is present and truthy (the guard
`if (sourceReward.name)` in the source). -/
def truthyName (r : JVal) : Option JVal :=
  match entryName r with
  | some nm => if jTruthy nm then some nm else none
  | none => none

/-- The `findIndex` predicate `r.name === sourceReward.name`. -/
def matchesName (nm : JVal) (r : JVal) : Bool :=
  match entryName r with
  | some rv => sEq rv nm
  | none => false

/-- `Array.prototype.findIndex`, returning `none` for `-1`. -/
def findIdxN (pred : JVal → Bool) : List JVal → Option ℕ
  | [] => none
  | r :: rest => if pred r then some 0 else (findIdxN pred rest).map (· + 1)

/-- Array element read `a[i]` (only used at indices returned by
`findIdxN`, which are always in bounds). -/
def getIdx : List JVal → ℕ → JVal
  | [], _ => JVal.null
  | r :: _, 0 => r
  | _ :: rest, n + 1 => getIdx rest n

/-- Array element write `a[i] = v` at an in-bounds index. -/
def setIdx : List JVal → ℕ → JVal → List JVal
  | [], _, _ => []
  | _ :: rest, 0, v => v :: rest
  | r :: rest, n + 1, v => r :: setIdx rest n v

/-- Object spread `\x7b ...a, ...b \x7d`: the fields of `a` in order, each
overwritten by a matching key of `b`, then the remaining keys of `b`
appended in order. -/
def shallowMergeFields (a b : List (String × JVal)) : List (String × JVal) :=
  b.foldl (fun acc kv => setKey acc kv.1 kv.2) a

/-- `newRewards[targetIndex] = \x7b ...newRewards[targetIndex], ...sourceReward \x7d`.
The matched entry is always an object (its `.name` compared equal to a
defined value), so the fallthrough branch is unreachable. -/
def mergeEntry (r : JVal) (sf : List (String × JVal)) : JVal :=
  match r with
  | JVal.obj rf => JVal.obj (shallowMergeFields rf sf)
  | r => r

/-- One iteration of the `source[key].forEach(sourceReward => ...)` loop
in `deepMerge`'s rewards branch (lines 103-114 of the source): entries
without a truthy `name` are skipped; a matching target entry is shallowly
overwritten in place; otherwise a shallow copy of the source entry is
appended. -/
def mergeOneReward (acc : List JVal) (s : JVal) : List JVal :=
  match s with
  | JVal.obj sf =>
      match lookupKey sf "name" with
      | some nm =>
          if jTruthy nm then
            match findIdxN (matchesName nm) acc with
            | some i => setIdx acc i (mergeEntry (getIdx acc i) sf)
            | none => acc ++ [JVal.obj sf]
          else acc
      | none => acc
  | _ => acc

/-- The whole rewards branch: clone the target array, fold the source
entries over it. -/
def mergeRewards (t s : List JVal) : List JVal := s.foldl mergeOneReward t

/-- The guard `key === 'rewards' && Array.isArray(source[key]) &&
Array.isArray(target[key])`, returning both element lists when it holds. -/
def rewardsBranch (t : List (String × JVal)) (k : String) (v : JVal) :
    Option (List JVal × List JVal) :=
  if k = "rewards" then
    match v, lookupKey t k with
    | JVal.arr se, some (JVal.arr te) => some (te, se)
    | _, _ => none
  else none

/-- `target[key] = target[key] || \x7b\x7d` before recursing: an existing
object is merged into, an absent or falsy value is replaced by a fresh
empty object.  A truthy non-object value would make JavaScript set
properties on an array object or throw a TypeError on a primitive; no
claim exercises that corner and it is modelled as the empty object. -/
def objOrEmpty : Option JVal → List (String × JVal)
  | some (JVal.obj fs) => fs
  | _ => []

/-- The copy in the plain-array branch:
`source[key].map(item => typeof item === 'object' && !Array.isArray(item) ? \x7b ...item \x7d : item)`.
`typeof null` is `'object'` and `null` is not an array, so a `null`
element is spread into an empty object. -/
def copyItems (es : List JVal) : List JVal :=
  es.map fun item =>
    match item with
    | JVal.obj fs => JVal.obj fs
    | JVal.null => JVal.obj []
    | x => x

mutual

/-- The value stored by one iteration of `deepMerge`'s `for (const key in
source)` loop: the rewards branch, the recursive object branch, the
plain-array copy branch, or the scalar overwrite (lines 100-128). -/
def newVal (t : List (String × JVal)) (k : String) (v : JVal) : JVal :=
  match rewardsBranch t k v with
  | some p => JVal.arr (mergeRewards p.1 p.2)
  | none =>
      match v with
      | JVal.obj sf => JVal.obj (deepMerge (objOrEmpty (lookupKey t k)) sf)
      | JVal.arr se => JVal.arr (copyItems se)
      | v => v
termination_by sizeOf v
decreasing_by simp_wf

/-- `deepMerge(target, source)` from lines 97-132 of the source: iterate
the keys of `source` in insertion order, storing `newVal` for each. -/
def deepMerge : List (String × JVal) → List (String × JVal) → List (String × JVal)
  | t, [] => t
  | t, (k, v) :: rest => deepMerge (setKey t k (newVal t k v)) rest
termination_by _ s => sizeOf s
decreasing_by all_goals simp_wf <;> omega

end

/-- Well-formedness of an object's field list: each key occurs once, as
in any object produced by `JSON.parse` or an object literal. -/
def nodupKeysB : List (String × JVal) → Bool
  | [] => true
  | (k, _) :: rest => (rest.all fun kv => decide (kv.1 ≠ k)) && nodupKeysB rest

/-- Well-formedness of a reward entry as the rewards merge can observe it:
not `null` (property access on `null` throws), keys unique, and a `name`
field, when present, holding a primitive (reward names in the
configuration are strings; `===` on them is value equality). -/
def entryOk : JVal → Bool
  | JVal.null => false
  | JVal.obj fs =>
      nodupKeysB fs &&
        (match lookupKey fs "name" with
         | some nm => isPrimB nm
         | none => true)
  | _ => true

/-- Modelled from the spec's words (for comparison with `mergeRewards`):
whether a source entry `s` has a truthy `name` that strict-equals `rv`. -/
def sourceMatches (rv : JVal) (s : JVal) : Bool :=
  match truthyName s with
  | some nm => sEq rv nm
  | none => false

/-- Modelled from the spec's words (for comparison with `mergeRewards`):
"an existing entry with matching `name` has its fields overwritten by the
source entry's fields (shallow merge per entry)"; entries without a
matching source entry are preserved untouched. -/
def specMergedEntry (ss : List JVal) (r : JVal) : JVal :=
  match r with
  | JVal.obj rf =>
      match lookupKey rf "name" with
      | some rv =>
          match ss.find? (sourceMatches rv) with
          | some (JVal.obj sf) => JVal.obj (shallowMergeFields rf sf)
          | _ => r
      | none => r
  | _ => r

/-- Modelled from the spec's words (for comparison with `mergeRewards`):
"a source entry whose `name` has no match is appended". -/
def specAppends (ts : List JVal) (s : JVal) : Bool :=
  match truthyName s with
  | some nm => ts.all fun r => !(matchesName nm r)
  | none => false

/-- The interpolation `min + (max - min) * (level - 1) / 9` from line 226
of the source, in exact rational arithmetic. -/
def lerpQ (lo hi : ℚ) (level : ℤ) : ℚ :=
  lo + (hi - lo) * ((level : ℚ) - 1) / 9

/-- `Math.round`: round half up (`jsRound_eq_round` below identifies it
with Mathlib's `round`). -/
def jsRound (x : ℚ) : ℤ := ⌊x + 1 / 2⌋

/-- The numeric content of `x.toFixed(2)`: `x` rounded to two decimal
places.  On every value produced by `lerpQ` at levels 1..10 the result is
at least 0.0011 away from any rounding boundary, so the IEEE-double
computation in the source rounds identically. -/
def toFixed2 (x : ℚ) : ℚ := (jsRound (x * 100) : ℤ) / 100

/-- Fixed-point rendering of `n` hundredths with two decimal places. -/
def toFixed2StrOfInt (n : ℤ) : String :=
  let m : ℕ := n.natAbs
  let frac : ℕ := m % 100
  (if n < 0 then "-" else "") ++ toString (m / 100) ++ "." ++
    (if frac < 10 then "0" else "") ++ toString frac

/-- The string produced by `x.toFixed(2)`. -/
def toFixed2Str (x : ℚ) : String := toFixed2StrOfInt (jsRound (x * 100))

/-- The settings object built by `getLevelSettings` (lines 225-280 of the
source).  `toFixed(2)` fields are strings; reward payouts go through
`Math.round`, which agrees with Mathlib's `round` (half up). -/
def getLevelSettingsFields (level : ℤ) : List (String × JVal) :=
  [("msv timer", JVal.str (toFixed2Str (lerpQ 30 180 level))),
   ("economy", JVal.obj
      [("$ multiplier", JVal.num (3 / 2)),
       ("xp multiplier", JVal.num 1),
       ("weapon xp multiplier", JVal.num 4)]),
   ("zone", JVal.obj
      [("move interval", JVal.num 300),
       ("move fraction", JVal.str (toFixed2Str (lerpQ 1 (1 / 2) level))),
       ("radius multiplier", JVal.str (toFixed2Str (lerpQ (7 / 10) 1 level))),
       ("prio radius multiplier", JVal.str (toFixed2Str (lerpQ (1 / 2) 1 level))),
       ("half height", JVal.num 30000),
       ("reward update interval", JVal.str (toFixed2Str (lerpQ 10 30 level))),
       ("vehicle can capture", JVal.bool false),
       ("prio vehicle can capture", JVal.bool true)]),
   ("rewards", JVal.arr
      [JVal.obj [("name", JVal.str "Enemy Killed"),
                 ("xp", JVal.num ((jsRound (lerpQ 200 100 level) : ℤ) : ℚ)),
                 ("$", JVal.num ((jsRound (lerpQ 200 100 level) : ℤ) : ℚ))],
       JVal.obj [("name", JVal.str "Priority Offensive"),
                 ("xp", JVal.num ((jsRound (lerpQ 400 200 level) : ℤ) : ℚ)),
                 ("$", JVal.num ((jsRound (lerpQ 400 200 level) : ℤ) : ℚ))],
       JVal.obj [("name", JVal.str "Priority Defensive"),
                 ("xp", JVal.num ((jsRound (lerpQ 500 200 level) : ℤ) : ℚ)),
                 ("$", JVal.num ((jsRound (lerpQ 500 200 level) : ℤ) : ℚ))],
       JVal.obj [("name", JVal.str "Objective Offensive"),
                 ("xp", JVal.num ((jsRound (lerpQ 70 100 level) : ℤ) : ℚ)),
                 ("$", JVal.num ((jsRound (lerpQ 70 100 level) : ℤ) : ℚ))],
       JVal.obj [("name", JVal.str "Objective Defensive"),
                 ("xp", JVal.num ((jsRound (lerpQ 80 100 level) : ℤ) : ℚ)),
                 ("$", JVal.num ((jsRound (lerpQ 80 100 level) : ℤ) : ℚ))],
       JVal.obj [("name", JVal.str "Bot Killed"),
                 ("xp", JVal.num ((jsRound (lerpQ 100 25 level) : ℤ) : ℚ)),
                 ("$", JVal.num ((jsRound (lerpQ 100 25 level) : ℤ) : ℚ))]])]

/-- The full settings value returned by `getLevelSettings`. -/
def getLevelSettings (level : ℤ) : JVal := JVal.obj (getLevelSettingsFields level)

/-- `determineLevel` (lines 219-223 of the source):
`Math.min(Math.max(1, Math.ceil(playerCount / 10)), 10)`. -/
def determineLevel (playerCount : ℕ) : ℤ :=
  min (max 1 ⌈(playerCount : ℚ) / 10⌉) 10

/-- The character class of the regex `[\x00-\x1F\x7F-\x9F]` removed by the
sanitize step. -/
def isControlChar (c : Char) : Bool :=
  c.toNat ≤ 0x1f || (0x7f ≤ c.toNat && c.toNat ≤ 0x9f)

/-- JavaScript `String.prototype.trim` whitespace (WhiteSpace and
LineTerminator code points). -/
def isJsWhitespace (c : Char) : Bool :=
  let n := c.toNat
  (9 ≤ n && n ≤ 13) || n == 32 || n == 0xa0 || n == 0x1680 ||
    (0x2000 ≤ n && n ≤ 0x200a) || n == 0x2028 || n == 0x2029 ||
    n == 0x202f || n == 0x205f || n == 0x3000 || n == 0xfeff

/-- The regex `^﻿` replacement: drop a single leading byte-order
mark. -/
def stripBOM : List Char → List Char
  | [] => []
  | c :: rest => if c.toNat = 0xfeff then rest else c :: rest

/-- The sanitize pipeline applied to raw file content in both
`getPlayerCount` and `updateSettings`: strip a BOM, remove C0/C1 control
characters, trim surrounding whitespace. -/
def sanitizeChars (l : List Char) : List Char :=
  (((stripBOM l).filter fun c => !(isControlChar c)).dropWhile
      isJsWhitespace).reverse.dropWhile isJsWhitespace |>.reverse

/-- `sanitizeChars` packaged on strings. -/
def sanitize (s : String) : String := String.mk (sanitizeChars s.toList)

/-- `content.startsWith(c)` for a one-character prefix. -/
def headIs (l : List Char) (c : Char) : Bool :=
  match l with
  | x :: _ => x = c
  | [] => false

/-- The observable state of the `PlayerList.json` file for one cycle:
whether `fs.access`/`fs.readFile` succeed, the raw bytes read, and the
outcome of `JSON.parse` on the sanitized content (`none` models a parse
exception; the parser itself is not modelled). -/
structure PlayerFileEnv where
  accessible : Bool
  raw : String
  parsed : Option JVal

/-- `getPlayerCount` (lines 53-94 of the source).  Every failure path
returns 0 through the guards or the surrounding `try`/`catch`; the
function never throws. -/
def getPlayerCountModel (env : PlayerFileEnv) : ℕ :=
  if !env.accessible then 0
  else
    let content := sanitizeChars env.raw.toList
    if !(headIs content '\x7b' || headIs content '[') then 0
    else
      match env.parsed with
      | none => 0
      | some (JVal.arr xs) => xs.length
      | some (JVal.obj fs) =>
          match lookupKey fs "players" with
          | some (JVal.arr ps) => ps.length
          | _ => 0
      | some _ => 0

/-- The observable state of `ServerSettings.json` for one update cycle:
whether `fs.access(R_OK | W_OK)`/`fs.readFile` succeed, the raw content,
the outcome of `JSON.parse` (content starting with a brace parses to an
object when it parses at all), and whether `fs.writeFile` succeeds. -/
structure CycleEnv where
  accessible : Bool
  raw : String
  parsed : Option (List (String × JVal))
  writeOk : Bool

/-- What one `updateSettings` cycle did: the value of
`this.lastPlayerCount` afterwards, whether the cycle attempted any config
file I/O, and the document passed to `fs.writeFile` if the write
happened. -/
structure CycleResult where
  newLast : Option ℕ
  didRead : Bool
  written : Option (List (String × JVal))

/-- `typeof v === 'object'` (true for objects, arrays and `null`). -/
def typeofObject : JVal → Bool
  | JVal.obj _ => true
  | JVal.arr _ => true
  | JVal.null => true
  | _ => false

/-- Lines 181-185 of the source: `if (!config.settings || typeof
config.settings !== 'object') config.settings = \x7b\x7d`.  Note an array
value is truthy and of type object, so it is left in place. -/
def ensureSettings (cfg : List (String × JVal)) : List (String × JVal) :=
  match lookupKey cfg "settings" with
  | some v =>
      if jTruthy v && typeofObject v then cfg
      else setKey cfg "settings" (JVal.obj [])
  | none => setKey cfg "settings" (JVal.obj [])

/-- The merge step of the cycle: `deepMerge(config.settings, newSettings)`
followed by serialization.  When `config.settings` survived
`ensureSettings` as an array, JavaScript sets named properties on the
array object, and `JSON.stringify` drops them, so the written document
keeps the bare array: modelled by returning the document unchanged. -/
def applySettings (cfg : List (String × JVal)) (level : ℤ) :
    List (String × JVal) :=
  match lookupKey cfg "settings" with
  | some (JVal.obj fs) =>
      setKey cfg "settings" (JVal.obj (deepMerge fs (getLevelSettingsFields level)))
  | _ => cfg

/-- One `updateSettings` cycle (lines 134-217 of the source), given the
previous `lastPlayerCount`, the player count observed (`none` models
`null`), and the config-file environment.  `didRead` is true exactly when
the cycle got past the threshold and idempotence guards and touched the
config file. -/
def updateSettingsModel (last : Option ℕ) (count : Option ℕ)
    (env : CycleEnv) : CycleResult :=
  match count with
  | none => ⟨none, false, none⟩
  | some c =>
      if 50 ≤ c then ⟨none, false, none⟩
      else if some c = last then ⟨last, false, none⟩
      else if !env.accessible then ⟨last, true, none⟩
      else
        let content := sanitizeChars env.raw.toList
        if !(headIs content '\x7b') then ⟨last, true, none⟩
        else
          match env.parsed with
          | none => ⟨last, true, none⟩
          | some cfg =>
              let merged := applySettings (ensureSettings cfg) (determineLevel c)
              if env.writeOk then ⟨some c, true, some merged⟩
              else ⟨last, true, none⟩

/-- Run a sequence of cycles from an initial remembered count, collecting
each cycle's written document (`none` when the cycle did not write). -/
def runCycles : Option ℕ → List (Option ℕ × CycleEnv) →
    Option ℕ × List (Option (List (String × JVal)))
  | last, [] => (last, [])
  | last, (c, env) :: rest =>
      let r := updateSettingsModel last c env
      let p := runCycles r.newLast rest
      (p.1, r.written :: p.2)

/-- A healthy environment: an accessible config file holding the empty
object, with writes succeeding. -/
def envOk : CycleEnv := ⟨true, "\x7b\x7d", some [], true⟩

/-- A cycle environment whose config file is inaccessible. -/
def envInaccessible : CycleEnv := ⟨false, "", none, true⟩

/-- A cycle environment whose config file content starts with a brace but
fails to parse. -/
def envParseFail : CycleEnv := ⟨true, "\x7bbad", none, true⟩

/-- A healthy environment whose document carries an array-valued
`settings` key. -/
def envArrSettings : CycleEnv :=
  ⟨true, "\x7b\x7d", some [("settings", JVal.arr [])], true⟩

/-- A healthy read environment whose write fails. -/
def envWriteFail : CycleEnv := ⟨true, "\x7b\x7d", some [], false⟩

/-! ## Arithmetic helper lemmas -/

theorem jsRound_eq_round (x : ℚ) : jsRound x = round x := (round_eq x).symm

theorem jsRound_eq_of (x : ℚ) (n : ℤ) (h1 : (n : ℚ) ≤ x + 1 / 2)
    (h2 : x + 1 / 2 < (n : ℚ) + 1) : jsRound x = n := by
  rw [jsRound]
  exact Int.floor_eq_iff.mpr ⟨h1, h2⟩

theorem toFixed2_eq (x : ℚ) (n : ℤ) (h : jsRound (x * 100) = n) :
    toFixed2 x = (n : ℚ) / 100 := by rw [toFixed2, h]

theorem ceil_div_ten (c : ℕ) : ⌈(c : ℚ) / 10⌉ = ((c + 9) / 10 : ℕ) := by
  have h10 : (0:ℚ) < 10 := by norm_num
  obtain ⟨n, hn⟩ : ∃ n : ℕ, (c + 9) / 10 = n := ⟨_, rfl⟩
  have h1 : 10 * n ≤ c + 9 := by omega
  have h1' : (10:ℚ) * n ≤ (c:ℚ) + 9 := by exact_mod_cast h1
  rw [hn, Int.ceil_eq_iff]
  constructor
  · rw [lt_div_iff₀ h10]
    push_cast
    linarith
  · rw [div_le_iff₀ h10]
    push_cast
    exact_mod_cast (by omega : c ≤ n * 10)

theorem determineLevel_div_eq (c : ℕ) :
    determineLevel c = min (max 1 (((c + 9) / 10 : ℕ) : ℤ)) 10 := by
  rw [determineLevel, ceil_div_ten]

/-! ## C3: determineLevel is clamp(ceil(count / 10), 1, 10) -/

/-- C3: for every player count `c`, `determineLevel c` is
`clamp(ceil(c / 10), 1, 10)`; in particular levels 1, 1, 2, 10 at counts
1, 10, 11, 95; the result always lies in [1, 10]; and the function is
monotone non-decreasing in the count. -/
theorem determineLevel_clamp_ceil :
    (∀ c : ℕ, determineLevel c = min (max 1 ⌈(c : ℚ) / 10⌉) 10) ∧
      determineLevel 1 = 1 ∧ determineLevel 10 = 1 ∧
      determineLevel 11 = 2 ∧ determineLevel 95 = 10 ∧
      (∀ c : ℕ, 1 ≤ determineLevel c ∧ determineLevel c ≤ 10) ∧
      (∀ c₁ c₂ : ℕ, c₁ ≤ c₂ → determineLevel c₁ ≤ determineLevel c₂) := by
  refine ⟨fun c => rfl, ?_, ?_, ?_, ?_, fun c => ?_, fun c₁ c₂ h => ?_⟩
  · rw [determineLevel_div_eq]; decide
  · rw [determineLevel_div_eq]; decide
  · rw [determineLevel_div_eq]; decide
  · rw [determineLevel_div_eq]; decide
  · rw [determineLevel_div_eq]; omega
  · rw [determineLevel_div_eq, determineLevel_div_eq]
    have : ((c₁ + 9) / 10 : ℕ) ≤ ((c₂ + 9) / 10 : ℕ) := by omega
    omega

/-- Witness exercising the monotonicity hypothesis of C3's theorem at a
concrete pair of counts. -/
theorem determineLevel_clamp_ceil_witness :
    determineLevel 7 ≤ determineLevel 23 :=
  determineLevel_clamp_ceil.2.2.2.2.2.2 7 23 (by norm_num)

/-! ## C4: getLevelSettings interpolates linearly between the anchors -/

theorem levelFieldsAt1 :
    getLevelSettingsFields 1 =
      [("msv timer", JVal.str "30.00"),
      ("economy", JVal.obj
         [("$ multiplier", JVal.num (3 / 2)),
          ("xp multiplier", JVal.num 1),
          ("weapon xp multiplier", JVal.num 4)]),
      ("zone", JVal.obj
         [("move interval", JVal.num 300),
          ("move fraction", JVal.str "1.00"),
          ("radius multiplier", JVal.str "0.70"),
          ("prio radius multiplier", JVal.str "0.50"),
          ("half height", JVal.num 30000),
          ("reward update interval", JVal.str "10.00"),
          ("vehicle can capture", JVal.bool false),
          ("prio vehicle can capture", JVal.bool true)]),
      ("rewards", JVal.arr
         [JVal.obj [("name", JVal.str "Enemy Killed"),
                    ("xp", JVal.num ((200 : ℤ) : ℚ)),
                    ("$", JVal.num ((200 : ℤ) : ℚ))],
          JVal.obj [("name", JVal.str "Priority Offensive"),
                    ("xp", JVal.num ((400 : ℤ) : ℚ)),
                    ("$", JVal.num ((400 : ℤ) : ℚ))],
          JVal.obj [("name", JVal.str "Priority Defensive"),
                    ("xp", JVal.num ((500 : ℤ) : ℚ)),
                    ("$", JVal.num ((500 : ℤ) : ℚ))],
          JVal.obj [("name", JVal.str "Objective Offensive"),
                    ("xp", JVal.num ((70 : ℤ) : ℚ)),
                    ("$", JVal.num ((70 : ℤ) : ℚ))],
          JVal.obj [("name", JVal.str "Objective Defensive"),
                    ("xp", JVal.num ((80 : ℤ) : ℚ)),
                    ("$", JVal.num ((80 : ℤ) : ℚ))],
          JVal.obj [("name", JVal.str "Bot Killed"),
                    ("xp", JVal.num ((100 : ℤ) : ℚ)),
                    ("$", JVal.num ((100 : ℤ) : ℚ))]])] := by
  have hms : jsRound (lerpQ 30 180 1 * 100) = 3000 := by
    apply jsRound_eq_of <;> norm_num [lerpQ]
  have hmf : jsRound (lerpQ 1 (1 / 2) 1 * 100) = 100 := by
    apply jsRound_eq_of <;> norm_num [lerpQ]
  have hrm : jsRound (lerpQ (7 / 10) 1 1 * 100) = 70 := by
    apply jsRound_eq_of <;> norm_num [lerpQ]
  have hpr : jsRound (lerpQ (1 / 2) 1 1 * 100) = 50 := by
    apply jsRound_eq_of <;> norm_num [lerpQ]
  have hru : jsRound (lerpQ 10 30 1 * 100) = 1000 := by
    apply jsRound_eq_of <;> norm_num [lerpQ]
  have hek : jsRound (lerpQ 200 100 1) = 200 := by
    apply jsRound_eq_of <;> norm_num [lerpQ]
  have hpo : jsRound (lerpQ 400 200 1) = 400 := by
    apply jsRound_eq_of <;> norm_num [lerpQ]
  have hpd : jsRound (lerpQ 500 200 1) = 500 := by
    apply jsRound_eq_of <;> norm_num [lerpQ]
  have hoo : jsRound (lerpQ 70 100 1) = 70 := by
    apply jsRound_eq_of <;> norm_num [lerpQ]
  have hod : jsRound (lerpQ 80 100 1) = 80 := by
    apply jsRound_eq_of <;> norm_num [lerpQ]
  have hbk : jsRound (lerpQ 100 25 1) = 100 := by
    apply jsRound_eq_of <;> norm_num [lerpQ]
  simp only [getLevelSettingsFields, toFixed2Str, hms, hmf, hrm, hpr, hru,
    hek, hpo, hpd, hoo, hod, hbk]
  rfl

theorem levelFieldsAt10 :
    getLevelSettingsFields 10 =
      [("msv timer", JVal.str "180.00"),
      ("economy", JVal.obj
         [("$ multiplier", JVal.num (3 / 2)),
          ("xp multiplier", JVal.num 1),
          ("weapon xp multiplier", JVal.num 4)]),
      ("zone", JVal.obj
         [("move interval", JVal.num 300),
          ("move fraction", JVal.str "0.50"),
          ("radius multiplier", JVal.str "1.00"),
          ("prio radius multiplier", JVal.str "1.00"),
          ("half height", JVal.num 30000),
          ("reward update interval", JVal.str "30.00"),
          ("vehicle can capture", JVal.bool false),
          ("prio vehicle can capture", JVal.bool true)]),
      ("rewards", JVal.arr
         [JVal.obj [("name", JVal.str "Enemy Killed"),
                    ("xp", JVal.num ((100 : ℤ) : ℚ)),
                    ("$", JVal.num ((100 : ℤ) : ℚ))],
          JVal.obj [("name", JVal.str "Priority Offensive"),
                    ("xp", JVal.num ((200 : ℤ) : ℚ)),
                    ("$", JVal.num ((200 : ℤ) : ℚ))],
          JVal.obj [("name", JVal.str "Priority Defensive"),
                    ("xp", JVal.num ((200 : ℤ) : ℚ)),
                    ("$", JVal.num ((200 : ℤ) : ℚ))],
          JVal.obj [("name", JVal.str "Objective Offensive"),
                    ("xp", JVal.num ((100 : ℤ) : ℚ)),
                    ("$", JVal.num ((100 : ℤ) : ℚ))],
          JVal.obj [("name", JVal.str "Objective Defensive"),
                    ("xp", JVal.num ((100 : ℤ) : ℚ)),
                    ("$", JVal.num ((100 : ℤ) : ℚ))],
          JVal.obj [("name", JVal.str "Bot Killed"),
                    ("xp", JVal.num ((25 : ℤ) : ℚ)),
                    ("$", JVal.num ((25 : ℤ) : ℚ))]])] := by
  have hms : jsRound (lerpQ 30 180 10 * 100) = 18000 := by
    apply jsRound_eq_of <;> norm_num [lerpQ]
  have hmf : jsRound (lerpQ 1 (1 / 2) 10 * 100) = 50 := by
    apply jsRound_eq_of <;> norm_num [lerpQ]
  have hrm : jsRound (lerpQ (7 / 10) 1 10 * 100) = 100 := by
    apply jsRound_eq_of <;> norm_num [lerpQ]
  have hpr : jsRound (lerpQ (1 / 2) 1 10 * 100) = 100 := by
    apply jsRound_eq_of <;> norm_num [lerpQ]
  have hru : jsRound (lerpQ 10 30 10 * 100) = 3000 := by
    apply jsRound_eq_of <;> norm_num [lerpQ]
  have hek : jsRound (lerpQ 200 100 10) = 100 := by
    apply jsRound_eq_of <;> norm_num [lerpQ]
  have hpo : jsRound (lerpQ 400 200 10) = 200 := by
    apply jsRound_eq_of <;> norm_num [lerpQ]
  have hpd : jsRound (lerpQ 500 200 10) = 200 := by
    apply jsRound_eq_of <;> norm_num [lerpQ]
  have hoo : jsRound (lerpQ 70 100 10) = 100 := by
    apply jsRound_eq_of <;> norm_num [lerpQ]
  have hod : jsRound (lerpQ 80 100 10) = 100 := by
    apply jsRound_eq_of <;> norm_num [lerpQ]
  have hbk : jsRound (lerpQ 100 25 10) = 25 := by
    apply jsRound_eq_of <;> norm_num [lerpQ]
  simp only [getLevelSettingsFields, toFixed2Str, hms, hmf, hrm, hpr, hru,
    hek, hpo, hpd, hoo, hod, hbk]
  rfl

theorem levelFieldsAt4 :
    getLevelSettingsFields 4 =
      [("msv timer", JVal.str "80.00"),
      ("economy", JVal.obj
         [("$ multiplier", JVal.num (3 / 2)),
          ("xp multiplier", JVal.num 1),
          ("weapon xp multiplier", JVal.num 4)]),
      ("zone", JVal.obj
         [("move interval", JVal.num 300),
          ("move fraction", JVal.str "0.83"),
          ("radius multiplier", JVal.str "0.80"),
          ("prio radius multiplier", JVal.str "0.67"),
          ("half height", JVal.num 30000),
          ("reward update interval", JVal.str "16.67"),
          ("vehicle can capture", JVal.bool false),
          ("prio vehicle can capture", JVal.bool true)]),
      ("rewards", JVal.arr
         [JVal.obj [("name", JVal.str "Enemy Killed"),
                    ("xp", JVal.num ((167 : ℤ) : ℚ)),
                    ("$", JVal.num ((167 : ℤ) : ℚ))],
          JVal.obj [("name", JVal.str "Priority Offensive"),
                    ("xp", JVal.num ((333 : ℤ) : ℚ)),
                    ("$", JVal.num ((333 : ℤ) : ℚ))],
          JVal.obj [("name", JVal.str "Priority Defensive"),
                    ("xp", JVal.num ((400 : ℤ) : ℚ)),
                    ("$", JVal.num ((400 : ℤ) : ℚ))],
          JVal.obj [("name", JVal.str "Objective Offensive"),
                    ("xp", JVal.num ((80 : ℤ) : ℚ)),
                    ("$", JVal.num ((80 : ℤ) : ℚ))],
          JVal.obj [("name", JVal.str "Objective Defensive"),
                    ("xp", JVal.num ((87 : ℤ) : ℚ)),
                    ("$", JVal.num ((87 : ℤ) : ℚ))],
          JVal.obj [("name", JVal.str "Bot Killed"),
                    ("xp", JVal.num ((75 : ℤ) : ℚ)),
                    ("$", JVal.num ((75 : ℤ) : ℚ))]])] := by
  have hms : jsRound (lerpQ 30 180 4 * 100) = 8000 := by
    apply jsRound_eq_of <;> norm_num [lerpQ]
  have hmf : jsRound (lerpQ 1 (1 / 2) 4 * 100) = 83 := by
    apply jsRound_eq_of <;> norm_num [lerpQ]
  have hrm : jsRound (lerpQ (7 / 10) 1 4 * 100) = 80 := by
    apply jsRound_eq_of <;> norm_num [lerpQ]
  have hpr : jsRound (lerpQ (1 / 2) 1 4 * 100) = 67 := by
    apply jsRound_eq_of <;> norm_num [lerpQ]
  have hru : jsRound (lerpQ 10 30 4 * 100) = 1667 := by
    apply jsRound_eq_of <;> norm_num [lerpQ]
  have hek : jsRound (lerpQ 200 100 4) = 167 := by
    apply jsRound_eq_of <;> norm_num [lerpQ]
  have hpo : jsRound (lerpQ 400 200 4) = 333 := by
    apply jsRound_eq_of <;> norm_num [lerpQ]
  have hpd : jsRound (lerpQ 500 200 4) = 400 := by
    apply jsRound_eq_of <;> norm_num [lerpQ]
  have hoo : jsRound (lerpQ 70 100 4) = 80 := by
    apply jsRound_eq_of <;> norm_num [lerpQ]
  have hod : jsRound (lerpQ 80 100 4) = 87 := by
    apply jsRound_eq_of <;> norm_num [lerpQ]
  have hbk : jsRound (lerpQ 100 25 4) = 75 := by
    apply jsRound_eq_of <;> norm_num [lerpQ]
  simp only [getLevelSettingsFields, toFixed2Str, hms, hmf, hrm, hpr, hru,
    hek, hpo, hpd, hoo, hod, hbk]
  rfl

/-- C4: every interpolated scalar field of the settings profile is
`lerp(lo, hi, (level - 1) / 9)`, rounded per field (`Math.round` for the
reward payouts, two decimal places for the `toFixed(2)` fields); at level
1 each field carries exactly its low anchor, at level 10 exactly its high
anchor; an intermediate level (4) carries the rounded linear blends.
`jsRound` agrees with mathematical rounding to the nearest integer. -/
theorem getLevelSettings_linear_interpolation :
    (∀ lo hi : ℚ, lerpQ lo hi 1 = lo ∧ lerpQ lo hi 10 = hi) ∧
      (∀ x : ℚ, jsRound x = round x) ∧
      (∀ level : ℤ, getLevelSettings level = JVal.obj (getLevelSettingsFields level)) ∧
      toFixed2 (lerpQ 30 180 1) = 30 ∧ toFixed2 (lerpQ 30 180 10) = 180 ∧
      toFixed2 (lerpQ 1 (1 / 2) 1) = 1 ∧ toFixed2 (lerpQ 1 (1 / 2) 10) = 1 / 2 ∧
      toFixed2 (lerpQ (7 / 10) 1 1) = 7 / 10 ∧ toFixed2 (lerpQ (7 / 10) 1 10) = 1 ∧
      toFixed2 (lerpQ (1 / 2) 1 1) = 1 / 2 ∧ toFixed2 (lerpQ (1 / 2) 1 10) = 1 ∧
      toFixed2 (lerpQ 10 30 1) = 10 ∧ toFixed2 (lerpQ 10 30 10) = 30 ∧
      jsRound (lerpQ 200 100 1) = 200 ∧ jsRound (lerpQ 200 100 10) = 100 ∧
      jsRound (lerpQ 400 200 1) = 400 ∧ jsRound (lerpQ 400 200 10) = 200 ∧
      jsRound (lerpQ 500 200 1) = 500 ∧ jsRound (lerpQ 500 200 10) = 200 ∧
      jsRound (lerpQ 70 100 1) = 70 ∧ jsRound (lerpQ 70 100 10) = 100 ∧
      jsRound (lerpQ 80 100 1) = 80 ∧ jsRound (lerpQ 80 100 10) = 100 ∧
      jsRound (lerpQ 100 25 1) = 100 ∧ jsRound (lerpQ 100 25 10) = 25 ∧
      getLevelSettingsFields 1 =
        [("msv timer", JVal.str "30.00"),
        ("economy", JVal.obj
           [("$ multiplier", JVal.num (3 / 2)),
            ("xp multiplier", JVal.num 1),
            ("weapon xp multiplier", JVal.num 4)]),
        ("zone", JVal.obj
           [("move interval", JVal.num 300),
            ("move fraction", JVal.str "1.00"),
            ("radius multiplier", JVal.str "0.70"),
            ("prio radius multiplier", JVal.str "0.50"),
            ("half height", JVal.num 30000),
            ("reward update interval", JVal.str "10.00"),
            ("vehicle can capture", JVal.bool false),
            ("prio vehicle can capture", JVal.bool true)]),
        ("rewards", JVal.arr
           [JVal.obj [("name", JVal.str "Enemy Killed"),
                      ("xp", JVal.num ((200 : ℤ) : ℚ)),
                      ("$", JVal.num ((200 : ℤ) : ℚ))],
            JVal.obj [("name", JVal.str "Priority Offensive"),
                      ("xp", JVal.num ((400 : ℤ) : ℚ)),
                      ("$", JVal.num ((400 : ℤ) : ℚ))],
            JVal.obj [("name", JVal.str "Priority Defensive"),
                      ("xp", JVal.num ((500 : ℤ) : ℚ)),
                      ("$", JVal.num ((500 : ℤ) : ℚ))],
            JVal.obj [("name", JVal.str "Objective Offensive"),
                      ("xp", JVal.num ((70 : ℤ) : ℚ)),
                      ("$", JVal.num ((70 : ℤ) : ℚ))],
            JVal.obj [("name", JVal.str "Objective Defensive"),
                      ("xp", JVal.num ((80 : ℤ) : ℚ)),
                      ("$", JVal.num ((80 : ℤ) : ℚ))],
            JVal.obj [("name", JVal.str "Bot Killed"),
                      ("xp", JVal.num ((100 : ℤ) : ℚ)),
                      ("$", JVal.num ((100 : ℤ) : ℚ))]])] ∧
      getLevelSettingsFields 10 =
        [("msv timer", JVal.str "180.00"),
        ("economy", JVal.obj
           [("$ multiplier", JVal.num (3 / 2)),
            ("xp multiplier", JVal.num 1),
            ("weapon xp multiplier", JVal.num 4)]),
        ("zone", JVal.obj
           [("move interval", JVal.num 300),
            ("move fraction", JVal.str "0.50"),
            ("radius multiplier", JVal.str "1.00"),
            ("prio radius multiplier", JVal.str "1.00"),
            ("half height", JVal.num 30000),
            ("reward update interval", JVal.str "30.00"),
            ("vehicle can capture", JVal.bool false),
            ("prio vehicle can capture", JVal.bool true)]),
        ("rewards", JVal.arr
           [JVal.obj [("name", JVal.str "Enemy Killed"),
                      ("xp", JVal.num ((100 : ℤ) : ℚ)),
                      ("$", JVal.num ((100 : ℤ) : ℚ))],
            JVal.obj [("name", JVal.str "Priority Offensive"),
                      ("xp", JVal.num ((200 : ℤ) : ℚ)),
                      ("$", JVal.num ((200 : ℤ) : ℚ))],
            JVal.obj [("name", JVal.str "Priority Defensive"),
                      ("xp", JVal.num ((200 : ℤ) : ℚ)),
                      ("$", JVal.num ((200 : ℤ) : ℚ))],
            JVal.obj [("name", JVal.str "Objective Offensive"),
                      ("xp", JVal.num ((100 : ℤ) : ℚ)),
                      ("$", JVal.num ((100 : ℤ) : ℚ))],
            JVal.obj [("name", JVal.str "Objective Defensive"),
                      ("xp", JVal.num ((100 : ℤ) : ℚ)),
                      ("$", JVal.num ((100 : ℤ) : ℚ))],
            JVal.obj [("name", JVal.str "Bot Killed"),
                      ("xp", JVal.num ((25 : ℤ) : ℚ)),
                      ("$", JVal.num ((25 : ℤ) : ℚ))]])] ∧
      getLevelSettingsFields 4 =
        [("msv timer", JVal.str "80.00"),
        ("economy", JVal.obj
           [("$ multiplier", JVal.num (3 / 2)),
            ("xp multiplier", JVal.num 1),
            ("weapon xp multiplier", JVal.num 4)]),
        ("zone", JVal.obj
           [("move interval", JVal.num 300),
            ("move fraction", JVal.str "0.83"),
            ("radius multiplier", JVal.str "0.80"),
            ("prio radius multiplier", JVal.str "0.67"),
            ("half height", JVal.num 30000),
            ("reward update interval", JVal.str "16.67"),
            ("vehicle can capture", JVal.bool false),
            ("prio vehicle can capture", JVal.bool true)]),
        ("rewards", JVal.arr
           [JVal.obj [("name", JVal.str "Enemy Killed"),
                      ("xp", JVal.num ((167 : ℤ) : ℚ)),
                      ("$", JVal.num ((167 : ℤ) : ℚ))],
            JVal.obj [("name", JVal.str "Priority Offensive"),
                      ("xp", JVal.num ((333 : ℤ) : ℚ)),
                      ("$", JVal.num ((333 : ℤ) : ℚ))],
            JVal.obj [("name", JVal.str "Priority Defensive"),
                      ("xp", JVal.num ((400 : ℤ) : ℚ)),
                      ("$", JVal.num ((400 : ℤ) : ℚ))],
            JVal.obj [("name", JVal.str "Objective Offensive"),
                      ("xp", JVal.num ((80 : ℤ) : ℚ)),
                      ("$", JVal.num ((80 : ℤ) : ℚ))],
            JVal.obj [("name", JVal.str "Objective Defensive"),
                      ("xp", JVal.num ((87 : ℤ) : ℚ)),
                      ("$", JVal.num ((87 : ℤ) : ℚ))],
            JVal.obj [("name", JVal.str "Bot Killed"),
                      ("xp", JVal.num ((75 : ℤ) : ℚ)),
                      ("$", JVal.num ((75 : ℤ) : ℚ))]])] := by
  refine ⟨fun lo hi => ⟨by simp [lerpQ], by norm_num [lerpQ]⟩,
    jsRound_eq_round, fun level => rfl,
    ?_, ?_, ?_, ?_, ?_, ?_, ?_, ?_, ?_, ?_,
    ?_, ?_, ?_, ?_, ?_, ?_, ?_, ?_, ?_, ?_, ?_, ?_,
    levelFieldsAt1, levelFieldsAt10, levelFieldsAt4⟩
  · rw [toFixed2_eq (lerpQ 30 180 1) 3000
        (by apply jsRound_eq_of <;> norm_num [lerpQ])]
    norm_num
  · rw [toFixed2_eq (lerpQ 30 180 10) 18000
        (by apply jsRound_eq_of <;> norm_num [lerpQ])]
    norm_num
  · rw [toFixed2_eq (lerpQ 1 (1 / 2) 1) 100
        (by apply jsRound_eq_of <;> norm_num [lerpQ])]
    norm_num
  · rw [toFixed2_eq (lerpQ 1 (1 / 2) 10) 50
        (by apply jsRound_eq_of <;> norm_num [lerpQ])]
    norm_num
  · rw [toFixed2_eq (lerpQ (7 / 10) 1 1) 70
        (by apply jsRound_eq_of <;> norm_num [lerpQ])]
    norm_num
  · rw [toFixed2_eq (lerpQ (7 / 10) 1 10) 100
        (by apply jsRound_eq_of <;> norm_num [lerpQ])]
    norm_num
  · rw [toFixed2_eq (lerpQ (1 / 2) 1 1) 50
        (by apply jsRound_eq_of <;> norm_num [lerpQ])]
    norm_num
  · rw [toFixed2_eq (lerpQ (1 / 2) 1 10) 100
        (by apply jsRound_eq_of <;> norm_num [lerpQ])]
    norm_num
  · rw [toFixed2_eq (lerpQ 10 30 1) 1000
        (by apply jsRound_eq_of <;> norm_num [lerpQ])]
    norm_num
  · rw [toFixed2_eq (lerpQ 10 30 10) 3000
        (by apply jsRound_eq_of <;> norm_num [lerpQ])]
    norm_num
  · apply jsRound_eq_of <;> norm_num [lerpQ]
  · apply jsRound_eq_of <;> norm_num [lerpQ]
  · apply jsRound_eq_of <;> norm_num [lerpQ]
  · apply jsRound_eq_of <;> norm_num [lerpQ]
  · apply jsRound_eq_of <;> norm_num [lerpQ]
  · apply jsRound_eq_of <;> norm_num [lerpQ]
  · apply jsRound_eq_of <;> norm_num [lerpQ]
  · apply jsRound_eq_of <;> norm_num [lerpQ]
  · apply jsRound_eq_of <;> norm_num [lerpQ]
  · apply jsRound_eq_of <;> norm_num [lerpQ]
  · apply jsRound_eq_of <;> norm_num [lerpQ]
  · apply jsRound_eq_of <;> norm_num [lerpQ]

/-! ## Cycle model helper lemmas -/

theorem written_some_newLast (last : Option ℕ) (c : ℕ) (env : CycleEnv)
    (h : (updateSettingsModel last (some c) env).written ≠ none) :
    (updateSettingsModel last (some c) env).newLast = some c := by
  obtain ⟨acc, raw, parsed, wok⟩ := env
  by_cases h1 : 50 ≤ c
  · simp [updateSettingsModel, h1] at h
  by_cases h2 : some c = last
  · simp [updateSettingsModel, h1, h2] at h
  cases acc
  · simp [updateSettingsModel, h1, h2] at h
  cases hb : headIs (sanitizeChars raw.data) '\x7b'
  · simp [updateSettingsModel, h1, h2, hb] at h
  cases parsed with
  | none => simp [updateSettingsModel, h1, h2, hb] at h
  | some cfg =>
      cases wok
      · simp [updateSettingsModel, h1, h2, hb] at h
      · simp [updateSettingsModel, h1, h2, hb]

/-! ## C5: crossing the threshold clears the remembered count -/

/-- C5: an observed count of at least 50 (or an unavailable count) clears
`lastPlayerCount` and performs no I/O; consequently the count sequence
[10, 60, 10] writes on cycles 1 and 3 but not 2, and cycle 3 writes the
very same document as cycle 1. -/
theorem threshold_clears_remembered_count :
    (∀ last env, updateSettingsModel last none env = ⟨none, false, none⟩) ∧
      (∀ last env c, 50 ≤ c →
        updateSettingsModel last (some c) env = ⟨none, false, none⟩) ∧
      (runCycles none [(some 10, envOk), (some 60, envOk), (some 10, envOk)]).2.length = 3 ∧
      (runCycles none [(some 10, envOk), (some 60, envOk), (some 10, envOk)]).2.getD 0 none ≠
        none ∧
      (runCycles none [(some 10, envOk), (some 60, envOk), (some 10, envOk)]).2.getD 1 none =
        none ∧
      (runCycles none [(some 10, envOk), (some 60, envOk), (some 10, envOk)]).2.getD 2 none =
        (runCycles none [(some 10, envOk), (some 60, envOk), (some 10, envOk)]).2.getD 0 none := by
  refine ⟨fun last env => rfl, fun last env c h => by simp [updateSettingsModel, h], ?_, ?_, ?_, ?_⟩ <;>
    simp [runCycles, updateSettingsModel, envOk, headIs, sanitizeChars, stripBOM,
      isControlChar, isJsWhitespace]

/-- Witness exercising the threshold hypothesis of C5's theorem at the
concrete count 60. -/
theorem threshold_clears_remembered_count_witness :
    updateSettingsModel (some 10) (some 60) envOk = ⟨none, false, none⟩ :=
  threshold_clears_remembered_count.2.1 (some 10) envOk 60 (by norm_num)

/-! ## C6: idempotence of consecutive identical counts -/

/-- C6 counterexample: when the first of two cycles observing the same
sub-threshold count fails (config file inaccessible), the second cycle is
not a no-op — it reads and writes. -/
theorem second_cycle_not_noop_after_failed_first :
    10 < 50 ∧
      (updateSettingsModel none (some 10) envInaccessible).written = none ∧
      (updateSettingsModel (updateSettingsModel none (some 10) envInaccessible).newLast
          (some 10) envOk).written ≠ none ∧
      (updateSettingsModel (updateSettingsModel none (some 10) envInaccessible).newLast
          (some 10) envOk).didRead = true := by
  refine ⟨by norm_num, ?_, ?_, ?_⟩ <;>
    simp [updateSettingsModel, envInaccessible, envOk, headIs, sanitizeChars, stripBOM,
      isControlChar, isJsWhitespace]

/-- C6 amended: if the first cycle completed its write, a second cycle
observing the same sub-threshold count is a no-op: no config I/O, no
write, remembered state unchanged — so exactly one write happens across
the two cycles. -/
theorem second_cycle_noop_after_successful_write (last : Option ℕ) (c : ℕ)
    (env1 env2 : CycleEnv) (hc : c < 50)
    (hw : (updateSettingsModel last (some c) env1).written ≠ none) :
    updateSettingsModel (updateSettingsModel last (some c) env1).newLast (some c) env2 =
      ⟨(updateSettingsModel last (some c) env1).newLast, false, none⟩ := by
  have h50 : ¬ 50 ≤ c := by omega
  rw [written_some_newLast last c env1 hw, updateSettingsModel]
  simp [h50]

/-- Witness for the amended C6 statement: a healthy first cycle at count
10 followed by a second cycle at count 10. -/
theorem second_cycle_noop_after_successful_write_witness :
    updateSettingsModel (updateSettingsModel none (some 10) envOk).newLast (some 10) envOk =
      ⟨(updateSettingsModel none (some 10) envOk).newLast, false, none⟩ :=
  second_cycle_noop_after_successful_write none 10 envOk envOk (by norm_num)
    (by simp [updateSettingsModel, envOk, headIs, sanitizeChars, stripBOM,
      isControlChar, isJsWhitespace])

/-! ## C7: failed cycles abort without mutating state -/

/-- C7: a cycle that fails before its write (inaccessible file, sanitized
content not starting with a brace, parse failure) or whose write fails
performs no write and leaves `lastPlayerCount` exactly as it was. -/
theorem cycle_failure_preserves_state (last : Option ℕ) (c : ℕ) (env : CycleEnv)
    (hc : c < 50) (hl : some c ≠ last) :
    (env.accessible = false →
      updateSettingsModel last (some c) env = ⟨last, true, none⟩) ∧
      (headIs (sanitizeChars env.raw.toList) '\x7b' = false →
        updateSettingsModel last (some c) env = ⟨last, true, none⟩) ∧
      (env.parsed = none →
        updateSettingsModel last (some c) env = ⟨last, true, none⟩) ∧
      (env.writeOk = false →
        (updateSettingsModel last (some c) env).written = none ∧
        (updateSettingsModel last (some c) env).newLast = last) := by
  obtain ⟨acc, raw, parsed, wok⟩ := env
  have h50 : ¬ 50 ≤ c := by omega
  simp only [updateSettingsModel, if_neg h50, if_neg hl]
  cases acc <;> cases hhb : headIs (sanitizeChars raw.data) '\x7b' <;>
    rcases parsed with _ | cfg <;> cases wok <;> simp_all

/-- Witness for C7: a parse failure at count 10 aborts the cycle, leaving
the remembered count (`none`) unchanged and writing nothing. -/
theorem cycle_failure_preserves_state_witness :
    updateSettingsModel none (some 10) envParseFail = ⟨none, true, none⟩ :=
  (cycle_failure_preserves_state none 10 envParseFail (by norm_num) (by simp)).2.2.1 rfl

/-! ## C9: tolerating a missing or invalid settings key -/

/-- C9 counterexample: a document whose `settings` is an array (not a
mapping) is not reinitialized — the array survives `ensureSettings`, is
not an object, and the cycle writes the document with `settings` still
the bare array rather than a merged mapping. -/
theorem settings_array_not_reinitialized :
    ensureSettings [("settings", JVal.arr [])] = [("settings", JVal.arr [])] ∧
      (∀ fs, JVal.arr ([] : List JVal) ≠ JVal.obj fs) ∧
      (updateSettingsModel none (some 10) envArrSettings).written =
        some [("settings", JVal.arr [])] := by
  refine ⟨by simp [ensureSettings, lookupKey, jTruthy, typeofObject],
    fun fs => by simp, ?_⟩
  simp [updateSettingsModel, envArrSettings, headIs, sanitizeChars, stripBOM,
    isControlChar, isJsWhitespace, applySettings, ensureSettings, lookupKey,
    jTruthy, typeofObject]

/-- C9 amended: `settings` is initialized to an empty mapping when it is
missing, falsy (such as `null`), or a non-object primitive; an
array value passes the `typeof` check and is left in place; in every case
the cycle proceeds to merge and write rather than failing. -/
theorem ensureSettings_partial_init :
    (∀ cfg, lookupKey cfg "settings" = none →
      ensureSettings cfg = setKey cfg "settings" (JVal.obj [])) ∧
      (∀ cfg v, lookupKey cfg "settings" = some v → jTruthy v = false →
        ensureSettings cfg = setKey cfg "settings" (JVal.obj [])) ∧
      (∀ cfg v, lookupKey cfg "settings" = some v → typeofObject v = false →
        ensureSettings cfg = setKey cfg "settings" (JVal.obj [])) ∧
      (∀ cfg es, lookupKey cfg "settings" = some (JVal.arr es) → ensureSettings cfg = cfg) ∧
      (∀ cfg fs, lookupKey cfg "settings" = some (JVal.obj fs) → ensureSettings cfg = cfg) ∧
      (∀ last c env cfg, c < 50 → some c ≠ last → env.accessible = true →
        headIs (sanitizeChars env.raw.toList) '\x7b' = true →
        env.parsed = some cfg → env.writeOk = true →
        updateSettingsModel last (some c) env =
          ⟨some c, true, some (applySettings (ensureSettings cfg) (determineLevel c))⟩) := by
  refine ⟨fun cfg h => by simp [ensureSettings, h],
    fun cfg v h hv => by simp [ensureSettings, h, hv],
    fun cfg v h hv => by simp [ensureSettings, h, hv, Bool.and_eq_true],
    fun cfg es h => by simp [ensureSettings, h, jTruthy, typeofObject],
    fun cfg fs h => by simp [ensureSettings, h, jTruthy, typeofObject],
    fun last c env cfg hc hl hacc hbr hp hw => ?_⟩
  obtain ⟨acc, raw, parsed, wok⟩ := env
  have h50 : ¬ 50 ≤ c := by omega
  simp_all [updateSettingsModel, h50]

/-- Witness for the amended C9 statement: the array-settings document
proceeds through a full cycle. -/
theorem ensureSettings_partial_init_witness :
    updateSettingsModel none (some 10) envArrSettings =
      ⟨some 10, true,
        some (applySettings (ensureSettings [("settings", JVal.arr [])])
          (determineLevel 10))⟩ :=
  ensureSettings_partial_init.2.2.2.2.2 none 10 envArrSettings _ (by norm_num)
    (by simp) rfl (by decide) rfl rfl

/-! ## C8: getPlayerCount never fails and counts players -/

/-- C8: `getPlayerCount` always produces a (non-negative, by type) natural
count and never raises: 0 on an inaccessible file, on sanitized content
starting with neither a brace nor a bracket, on a parse failure, on a
primitive parse result, and on an object without a `players` array; the
bare array's length, or the `players` array's length, otherwise. -/
theorem getPlayerCount_never_fails :
    ∀ env : PlayerFileEnv,
      (env.accessible = false → getPlayerCountModel env = 0) ∧
      (headIs (sanitizeChars env.raw.toList) '\x7b' = false →
        headIs (sanitizeChars env.raw.toList) '[' = false →
        getPlayerCountModel env = 0) ∧
      (env.parsed = none → getPlayerCountModel env = 0) ∧
      (∀ v, env.parsed = some v → isPrimB v = true → getPlayerCountModel env = 0) ∧
      (∀ fs, env.parsed = some (JVal.obj fs) →
        (∀ ps, lookupKey fs "players" ≠ some (JVal.arr ps)) →
        getPlayerCountModel env = 0) ∧
      (env.accessible = true →
        (headIs (sanitizeChars env.raw.toList) '\x7b' = true ∨
          headIs (sanitizeChars env.raw.toList) '[' = true) →
        (∀ xs, env.parsed = some (JVal.arr xs) → getPlayerCountModel env = xs.length) ∧
        (∀ fs ps, env.parsed = some (JVal.obj fs) →
          lookupKey fs "players" = some (JVal.arr ps) →
          getPlayerCountModel env = ps.length)) := by
  intro env
  obtain ⟨acc, raw, parsed⟩ := env
  refine ⟨fun h => by simp_all [getPlayerCountModel],
    fun h1 h2 => by simp_all [getPlayerCountModel],
    fun h => by simp_all [getPlayerCountModel],
    fun v hv hp => ?_,
    fun fs hfs hnp => ?_,
    fun hacc hhead => ?_⟩
  · cases v <;> simp_all [getPlayerCountModel, isPrimB]
  · rcases hlp : lookupKey fs "players" with _ | w
    · simp_all [getPlayerCountModel]
    · cases w <;> simp_all [getPlayerCountModel]
  · constructor
    · intro xs hxs
      rcases hhead with hh | hh <;> simp_all [getPlayerCountModel]
    · intro fs ps hfs hlp
      rcases hhead with hh | hh <;> simp_all [getPlayerCountModel]

/-- Witness for C8 at concrete environments: a bare two-element list
counts 2, and an unreadable file counts 0. -/
theorem getPlayerCount_never_fails_witness :
    getPlayerCountModel ⟨true, "[1,2]", some (JVal.arr [JVal.num 1, JVal.num 2])⟩ = 2 ∧
      getPlayerCountModel ⟨false, "", none⟩ = 0 :=
  ⟨((getPlayerCount_never_fails ⟨true, "[1,2]", some (JVal.arr [JVal.num 1, JVal.num 2])⟩).2.2.2.2.2
      rfl (Or.inr (by decide))).1 [JVal.num 1, JVal.num 2] rfl,
    (getPlayerCount_never_fails ⟨false, "", none⟩).1 rfl⟩

/-! ## Frame lemmas for setKey / lookupKey -/

theorem lookup_setKey_ne (t : List (String × JVal)) (kk k : String) (v : JVal)
    (h : kk ≠ k) : lookupKey (setKey t kk v) k = lookupKey t k := by
  induction t with
  | nil => simp [setKey, lookupKey, h]
  | cons hd tl ih =>
      obtain ⟨k', v'⟩ := hd
      by_cases hk : k' = kk
      · subst hk
        simp [setKey, lookupKey, h]
      · simp only [setKey, if_neg hk]
        by_cases hk2 : k' = k
        · simp [lookupKey, hk2]
        · simp [lookupKey, hk2, ih]

theorem mem_keys_setKey (t : List (String × JVal)) (kk k : String) (v : JVal)
    (h : k ∈ keysOf t) : k ∈ keysOf (setKey t kk v) := by
  induction t with
  | nil => simp [keysOf] at h
  | cons hd tl ih =>
      obtain ⟨k', v'⟩ := hd
      by_cases hk : k' = kk
      · subst hk
        simpa [setKey, keysOf] using h
      · simp only [setKey, if_neg hk]
        simp only [keysOf, List.map_cons, List.mem_cons] at h ⊢
        rcases h with h | h
        · exact Or.inl h
        · exact Or.inr (ih h)

theorem deepMerge_nil (t : List (String × JVal)) : deepMerge t [] = t := by
  simp [deepMerge]

theorem deepMerge_cons (t : List (String × JVal)) (k : String) (v : JVal)
    (rest : List (String × JVal)) :
    deepMerge t ((k, v) :: rest) = deepMerge (setKey t k (newVal t k v)) rest := by
  simp [deepMerge]

/-! ## C1: deepMerge never removes or disturbs foreign keys -/

/-- C1: a key absent from the source keeps its exact target value across
`deepMerge`; no key of the target is ever removed; and the spec's
example — merging a partial `zone` into a settings object with an extra
`zone.b` field and an `other` sibling — preserves both foreign keys. -/
theorem deepMerge_preserves_foreign_keys :
    (∀ s t k, lookupKey s k = none →
      lookupKey (deepMerge t s) k = lookupKey t k) ∧
      (∀ s t k, k ∈ keysOf t → k ∈ keysOf (deepMerge t s)) ∧
      deepMerge
          [("zone", JVal.obj [("a", JVal.num 0), ("b", JVal.num 2)]),
            ("other", JVal.bool true)]
          [("zone", JVal.obj [("a", JVal.num 1)])] =
        [("zone", JVal.obj [("a", JVal.num 1), ("b", JVal.num 2)]),
          ("other", JVal.bool true)] := by
  refine ⟨?_, ?_, ?_⟩
  · intro s
    induction s with
    | nil => intro t k _; rw [deepMerge_nil]
    | cons hd rest ih =>
        intro t k h
        obtain ⟨k', v⟩ := hd
        rw [lookupKey] at h
        by_cases hk : k' = k
        · simp [hk] at h
        · rw [if_neg hk] at h
          rw [deepMerge_cons, ih _ _ h, lookup_setKey_ne _ _ _ _ hk]
  · intro s
    induction s with
    | nil => intro t k h; rwa [deepMerge_nil]
    | cons hd rest ih =>
        intro t k h
        obtain ⟨k', v⟩ := hd
        rw [deepMerge_cons]
        exact ih _ _ (mem_keys_setKey _ _ _ _ h)
  · simp [deepMerge, newVal, rewardsBranch, objOrEmpty, lookupKey, setKey]

/-- Witness for C1 exercising the frame at a concrete document: the key
`other` is untouched by a merge whose source lacks it. -/
theorem deepMerge_preserves_foreign_keys_witness :
    lookupKey
        (deepMerge [("other", JVal.bool true)] [("zone", JVal.num 1)]) "other" =
      lookupKey [("other", JVal.bool true)] "other" :=
  deepMerge_preserves_foreign_keys.1 [("zone", JVal.num 1)]
    [("other", JVal.bool true)] "other" rfl

/-! ## Strict-equality and name lemmas for the rewards merge -/

theorem sEq_refl (a : JVal) (h : isPrimB a = true) : sEq a a = true := by
  cases a <;> simp_all [sEq, isPrimB]

theorem sEq_eq (a b : JVal) (ha : isPrimB a = true) (h : sEq a b = true) :
    a = b := by
  cases a <;> cases b <;> simp_all [sEq, isPrimB]

theorem truthyName_some (s : JVal) (nm : JVal) (h : truthyName s = some nm) :
    ∃ sf, s = JVal.obj sf ∧ lookupKey sf "name" = some nm ∧ jTruthy nm = true := by
  cases s with
  | obj sf =>
      refine ⟨sf, rfl, ?_⟩
      rw [truthyName, entryName] at h
      rcases hl : lookupKey sf "name" with _ | w
      · rw [hl] at h
        exact absurd h (by simp)
      · rw [hl] at h
        by_cases hw : jTruthy w = true
        · simp only [hw, if_true] at h
          obtain rfl : w = nm := by injection h
          exact ⟨rfl, hw⟩
        · simp only [hw, if_false] at h
          exact absurd h (by simp)
  | null => exact absurd h (by simp [truthyName, entryName])
  | bool b => exact absurd h (by simp [truthyName, entryName])
  | num q => exact absurd h (by simp [truthyName, entryName])
  | str s => exact absurd h (by simp [truthyName, entryName])
  | arr es => exact absurd h (by simp [truthyName, entryName])

theorem mergeOne_skip (acc : List JVal) (r : JVal) (h : truthyName r = none) :
    mergeOneReward acc r = acc := by
  cases r <;> simp_all [mergeOneReward, truthyName, entryName]
  rcases hl : lookupKey _ "name" with _ | nm
  · rfl
  · simp_all

theorem lookup_none_of_all_ne (rest : List (String × JVal)) (k : String)
    (h : rest.all (fun kv => decide (kv.1 ≠ k)) = true) :
    lookupKey rest k = none := by
  induction rest with
  | nil => rfl
  | cons hd tl ih =>
      simp only [List.all_cons, Bool.and_eq_true, decide_eq_true_eq] at h
      rw [lookupKey, if_neg h.1]
      exact ih h.2

theorem lookup_setKey_self (a : List (String × JVal)) (k : String) (v : JVal) :
    lookupKey (setKey a k v) k = some v := by
  induction a with
  | nil => simp [setKey, lookupKey]
  | cons hd tl ih =>
      obtain ⟨ka, va⟩ := hd
      by_cases hka : ka = k
      · subst hka
        simp [setKey, lookupKey]
      · simp [setKey, lookupKey, hka, ih]

theorem lookup_shallowMerge (b : List (String × JVal)) :
    ∀ a k, nodupKeysB b = true →
      lookupKey (shallowMergeFields a b) k =
        (match lookupKey b k with
         | some v => some v
         | none => lookupKey a k) := by
  induction b with
  | nil => intro a k _; rfl
  | cons hd tl ih =>
      intro a k hb
      obtain ⟨kb, vb⟩ := hd
      simp only [nodupKeysB, Bool.and_eq_true] at hb
      have step : shallowMergeFields a ((kb, vb) :: tl) =
          shallowMergeFields (setKey a kb vb) tl := rfl
      rw [step, ih _ _ hb.2]
      by_cases hk : kb = k
      · subst hk
        have h1 := lookup_none_of_all_ne tl kb hb.1
        simp [lookupKey, h1, lookup_setKey_self]
      · have h2 : lookupKey ((kb, vb) :: tl) k = lookupKey tl k := by
          rw [lookupKey, if_neg hk]
        rw [h2, lookup_setKey_ne _ _ _ _ hk]

/-! ## findIndex lemmas -/

theorem findIdxN_eq_none (pred : JVal → Bool) (A : List JVal)
    (h : ∀ x ∈ A, pred x = false) : findIdxN pred A = none := by
  induction A with
  | nil => rfl
  | cons hd tl ih =>
      rw [findIdxN, if_neg (by simp [h hd (by simp)]), ih]
      · rfl
      · exact fun x hx => h x (by simp [hx])

theorem findIdxN_none_all (pred : JVal → Bool) (A : List JVal)
    (h : findIdxN pred A = none) : ∀ x ∈ A, pred x = false := by
  induction A with
  | nil => simp
  | cons hd tl ih =>
      rw [findIdxN] at h
      by_cases hh : pred hd = true
      · rw [if_pos hh] at h
        exact absurd h (by simp)
      · rw [if_neg hh] at h
        intro x hx
        rcases List.mem_cons.mp hx with rfl | hx'
        · simpa using hh
        · exact ih (by simpa using h) x hx'

theorem findIdxN_append_right_none (pred : JVal → Bool) (A B : List JVal)
    (hB : ∀ x ∈ B, pred x = false) :
    findIdxN pred (A ++ B) = findIdxN pred A := by
  induction A with
  | nil => simp [findIdxN_eq_none pred B hB, findIdxN]
  | cons hd tl ih =>
      rw [List.cons_append, findIdxN, findIdxN, ih]

theorem map_congr_mem (f g : JVal → JVal) (A : List JVal)
    (h : ∀ x ∈ A, f x = g x) : A.map f = A.map g := by
  induction A with
  | nil => rfl
  | cons hd tl ih =>
      rw [List.map_cons, List.map_cons, h hd (by simp),
        ih fun x hx => h x (by simp [hx])]

/-! ## entryOk lemmas -/

theorem entryOk_obj (rf : List (String × JVal)) (h : entryOk (JVal.obj rf) = true) :
    nodupKeysB rf = true ∧
      ∀ rv, lookupKey rf "name" = some rv → isPrimB rv = true := by
  rw [entryOk, Bool.and_eq_true] at h
  refine ⟨h.1, fun rv hrv => ?_⟩
  have h2 := h.2
  rw [hrv] at h2
  exact h2

theorem matches_truthyName (r nm : JVal) (hr : entryOk r = true)
    (htr : jTruthy nm = true) (h : matchesName nm r = true) :
    truthyName r = some nm := by
  cases r with
  | obj rf =>
      rw [matchesName, entryName] at h
      rcases hl : lookupKey rf "name" with _ | rv
      · rw [hl] at h
        exact absurd h (by simp)
      · rw [hl] at h
        have hprim := (entryOk_obj rf hr).2 rv hl
        have h2 : sEq rv nm = true := by
          revert h
          simp
        obtain rfl := sEq_eq rv nm hprim h2
        simp [truthyName, entryName, hl, htr]
  | null => exact absurd h (by simp [matchesName, entryName])
  | bool b => exact absurd h (by simp [matchesName, entryName])
  | num q => exact absurd h (by simp [matchesName, entryName])
  | str s => exact absurd h (by simp [matchesName, entryName])
  | arr es => exact absurd h (by simp [matchesName, entryName])

theorem matches_of_truthyName (r nm : JVal) (hnm : isPrimB nm = true)
    (h : truthyName r = some nm) : matchesName nm r = true := by
  obtain ⟨rf, rfl, hl, htr⟩ := truthyName_some r nm h
  rw [matchesName, entryName, hl]
  exact sEq_refl nm hnm

theorem matches_countP (ts : List JVal) (nm : JVal)
    (ht0 : ∀ r ∈ ts, entryOk r = true)
    (ht1 : (ts.filterMap truthyName).Pairwise fun a b => sEq a b = false)
    (hnm : isPrimB nm = true) (htr : jTruthy nm = true) :
    ts.countP (matchesName nm) ≤ 1 := by
  induction ts with
  | nil => simp
  | cons r ts' ih =>
      have htail0 : ∀ x ∈ ts', entryOk x = true := fun x hx => ht0 x (by simp [hx])
      have htail1 : (ts'.filterMap truthyName).Pairwise fun a b => sEq a b = false := by
        rcases hr : truthyName r with _ | x
        · rwa [List.filterMap_cons, hr] at ht1
        · rw [List.filterMap_cons, hr] at ht1
          exact ht1.of_cons
      by_cases hm : matchesName nm r = true
      · have hrn : truthyName r = some nm :=
          matches_truthyName r nm (ht0 r (by simp)) htr hm
        have hzero : ts'.countP (matchesName nm) = 0 := by
          rw [List.countP_eq_zero]
          intro r' hr'
          by_contra hm'
          have hm'' : matchesName nm r' = true := by
            revert hm'; cases matchesName nm r' <;> simp
          have hrn' : truthyName r' = some nm :=
            matches_truthyName r' nm (htail0 r' hr') htr hm''
          have hmem : nm ∈ ts'.filterMap truthyName :=
            List.mem_filterMap.mpr ⟨r', hr', hrn'⟩
          rw [List.filterMap_cons, hrn] at ht1
          have := (List.pairwise_cons.mp ht1).1 nm hmem
          rw [sEq_refl nm hnm] at this
          exact absurd this (by simp)
        rw [List.countP_cons, hzero]
        simp [hm]
      · rw [List.countP_cons, if_neg (by simpa using hm)]
        simpa using ih htail0 htail1

/-! ## specMergedEntry lemmas -/

theorem specMergedEntry_nil (r : JVal) : specMergedEntry [] r = r := by
  cases r with
  | obj rf =>
      rw [specMergedEntry]
      rcases hl : lookupKey rf "name" with _ | rv <;> simp [hl, List.find?]
  | null => rfl
  | bool b => rfl
  | num q => rfl
  | str s => rfl
  | arr es => rfl

theorem specMergedEntry_append_skip (p : List JVal) (s : JVal) (r : JVal)
    (hs : ∀ rv, entryName r = some rv → sourceMatches rv s = false) :
    specMergedEntry (p ++ [s]) r = specMergedEntry p r := by
  cases r with
  | obj rf =>
      rw [specMergedEntry, specMergedEntry]
      rcases hl : lookupKey rf "name" with _ | rv
      · simp [hl]
      · have hrv : sourceMatches rv s = false := hs rv (by rw [entryName, hl])
        simp [hl, List.find?_append, List.find?, hrv]
  | null => rfl
  | bool b => rfl
  | num q => rfl
  | str s => rfl
  | arr es => rfl

theorem entryName_specMergedEntry (p : List JVal) (r : JVal)
    (hr : entryOk r = true) (hp : ∀ x ∈ p, entryOk x = true) :
    entryName (specMergedEntry p r) = entryName r := by
  cases r with
  | obj rf =>
      rw [specMergedEntry]
      rcases hl : lookupKey rf "name" with _ | rv
      · simp [hl]
      · simp only [hl]
        rcases hf : List.find? (sourceMatches rv) p with _ | s'
        · simp
        · have hs' : sourceMatches rv s' = true := List.find?_some hf
          have hmem : s' ∈ p := List.mem_of_find?_eq_some hf
          rcases hts' : truthyName s' with _ | nm'
          · rw [sourceMatches, hts'] at hs'
            exact absurd hs' (by simp)
          · have hrvnm : sEq rv nm' = true := by
              rw [sourceMatches, hts'] at hs'
              exact hs'
            obtain ⟨sf', rfl, hname', htr'⟩ := truthyName_some s' nm' hts'
            have hnodup' : nodupKeysB sf' = true :=
              (entryOk_obj sf' (hp _ hmem)).1
            have hprim : isPrimB rv = true := (entryOk_obj rf hr).2 rv hl
            obtain rfl := sEq_eq rv nm' hprim hrvnm
            simp only [entryName, hl]
            rw [lookup_shallowMerge sf' rf "name" hnodup', hname']
  | null => rfl
  | bool b => rfl
  | num q => rfl
  | str s => rfl
  | arr es => rfl

theorem matchesName_specMergedEntry (nm : JVal) (p : List JVal) (r : JVal)
    (hr : entryOk r = true) (hp : ∀ x ∈ p, entryOk x = true) :
    matchesName nm (specMergedEntry p r) = matchesName nm r := by
  rw [matchesName, matchesName, entryName_specMergedEntry p r hr hp]

/-! ## The in-place update step of the rewards merge -/

theorem step_update (nm : JVal) (sf : List (String × JVal)) (f g : JVal → JVal)
    (ap : List JVal) :
    ∀ ts : List JVal,
      (∀ r ∈ ts, matchesName nm (f r) = matchesName nm r) →
      (∀ r ∈ ts, matchesName nm r = true → f r = r ∧ mergeEntry r sf = g r) →
      (∀ r ∈ ts, matchesName nm r = false → f r = g r) →
      ts.countP (matchesName nm) ≤ 1 →
      (∃ r ∈ ts, matchesName nm r = true) →
      (match findIdxN (matchesName nm) (ts.map f ++ ap) with
       | some i =>
           setIdx (ts.map f ++ ap) i (mergeEntry (getIdx (ts.map f ++ ap) i) sf)
       | none => ts.map f ++ ap ++ [JVal.obj sf]) = ts.map g ++ ap := by
  intro ts
  induction ts with
  | nil =>
      intro _ _ _ _ hex
      simp at hex
  | cons r ts' ih =>
      intro hf hmatch hno hcnt hex
      by_cases hm : matchesName nm r = true
      · have hfr : matchesName nm (f r) = true := by
          rw [hf r (by simp)]
          exact hm
        have h0 : findIdxN (matchesName nm) ((r :: ts').map f ++ ap) = some 0 := by
          rw [List.map_cons, List.cons_append, findIdxN, if_pos hfr]
        rw [h0, List.map_cons, List.cons_append]
        simp only [setIdx, getIdx]
        rw [(hmatch r (by simp) hm).1, (hmatch r (by simp) hm).2]
        have hzero : ts'.countP (matchesName nm) = 0 := by
          rw [List.countP_cons, if_pos (by simpa using hm)] at hcnt
          omega
        have hall := List.countP_eq_zero.mp hzero
        rw [map_congr_mem f g ts'
          (fun x hx => hno x (by simp [hx]) (by simpa using hall x hx))]
        rw [List.map_cons, List.cons_append]
      · have hmf : matchesName nm r = false := by simpa using hm
        have hfr : matchesName nm (f r) = false := by
          rw [hf r (by simp)]
          exact hmf
        have hex' : ∃ x ∈ ts', matchesName nm x = true := by
          rcases hex with ⟨x, hx, hxm⟩
          rcases List.mem_cons.mp hx with rfl | hx'
          · exact absurd hxm hm
          · exact ⟨x, hx', hxm⟩
        rcases hidx : findIdxN (matchesName nm) (ts'.map f ++ ap) with _ | j
        · rcases hex' with ⟨x, hx', hxm⟩
          have hmem : f x ∈ ts'.map f ++ ap :=
            List.mem_append.mpr (Or.inl (List.mem_map.mpr ⟨x, hx', rfl⟩))
          have hfalse := findIdxN_none_all _ _ hidx (f x) hmem
          rw [hf x (by simp [hx']), hxm] at hfalse
          exact absurd hfalse (by simp)
        · have hcons : findIdxN (matchesName nm) ((r :: ts').map f ++ ap) =
              some (j + 1) := by
            rw [List.map_cons, List.cons_append, findIdxN, if_neg (by simp [hfr]),
              hidx]
            rfl
          rw [hcons, List.map_cons, List.cons_append]
          simp only [setIdx, getIdx]
          have hcnt' : ts'.countP (matchesName nm) ≤ 1 := by
            rw [List.countP_cons] at hcnt
            omega
          have htail := ih (fun x hx => hf x (by simp [hx]))
            (fun x hx hxm => hmatch x (by simp [hx]) hxm)
            (fun x hx hxm => hno x (by simp [hx]) hxm) hcnt' hex'
          rw [hidx] at htail
          have htail2 : setIdx (List.map f ts' ++ ap) j
              (mergeEntry (getIdx (List.map f ts' ++ ap) j) sf) =
                List.map g ts' ++ ap := htail
          rw [htail2, hno r (by simp) hmf, List.map_cons, List.cons_append]

/-! ## One source entry advances the merged state -/

theorem mergeOne_state (ts p : List JVal) (s : JVal)
    (ht0 : ∀ r ∈ ts, entryOk r = true)
    (ht1 : (ts.filterMap truthyName).Pairwise fun a b => sEq a b = false)
    (hp0 : ∀ x ∈ p, entryOk x = true)
    (hs0 : entryOk s = true)
    (hps : ∀ a ∈ p.filterMap truthyName, ∀ b ∈ (truthyName s).toList,
      sEq a b = false) :
    mergeOneReward (ts.map (specMergedEntry p) ++ p.filter (specAppends ts)) s =
      ts.map (specMergedEntry (p ++ [s])) ++ (p ++ [s]).filter (specAppends ts) := by
  rcases hts : truthyName s with _ | nm
  · rw [mergeOne_skip _ s hts]
    have hmap : ∀ r ∈ ts, specMergedEntry (p ++ [s]) r = specMergedEntry p r := by
      intro r hr
      apply specMergedEntry_append_skip
      intro rv hrv
      rw [sourceMatches, hts]
    rw [map_congr_mem (specMergedEntry (p ++ [s])) (specMergedEntry p) ts hmap,
      List.filter_append]
    have : List.filter (specAppends ts) [s] = [] := by
      simp [List.filter, specAppends, hts]
    rw [this, List.append_nil]
  · obtain ⟨sf, rfl, hname, htrn⟩ := truthyName_some s nm hts
    have hnm_prim : isPrimB nm = true := (entryOk_obj sf hs0).2 nm hname
    have hf : ∀ r ∈ ts,
        matchesName nm (specMergedEntry p r) = matchesName nm r :=
      fun r hr => matchesName_specMergedEntry nm p r (ht0 r hr) hp0
    have hap : ∀ x ∈ p.filter (specAppends ts), matchesName nm x = false := by
      intro x hx
      have hxp : x ∈ p := List.mem_of_mem_filter hx
      have hxq : specAppends ts x = true := List.of_mem_filter hx
      rcases hqx : truthyName x with _ | nmx
      · rw [specAppends, hqx] at hxq
        exact absurd hxq (by simp)
      · by_contra hmx
        have hmx' : matchesName nm x = true := by
          revert hmx
          cases matchesName nm x <;> simp
        obtain ⟨xf, rfl, hxname, _⟩ := truthyName_some x nmx hqx
        rw [matchesName, entryName, hxname] at hmx'
        have hmx2 : sEq nmx nm = true := hmx'
        have hfalse : sEq nmx nm = false :=
          hps nmx (List.mem_filterMap.mpr ⟨_, hxp, hqx⟩) nm (by simp [hts])
        rw [hmx2] at hfalse
        exact absurd hfalse (by simp)
    have hunfold : mergeOneReward
        (ts.map (specMergedEntry p) ++ p.filter (specAppends ts)) (JVal.obj sf) =
        (match findIdxN (matchesName nm)
            (ts.map (specMergedEntry p) ++ p.filter (specAppends ts)) with
         | some i =>
             setIdx (ts.map (specMergedEntry p) ++ p.filter (specAppends ts)) i
               (mergeEntry (getIdx
                 (ts.map (specMergedEntry p) ++ p.filter (specAppends ts)) i) sf)
         | none =>
             (ts.map (specMergedEntry p) ++ p.filter (specAppends ts)) ++
               [JVal.obj sf]) := by
      rw [mergeOneReward, hname]
      exact if_pos htrn
    by_cases hex : ∃ r ∈ ts, matchesName nm r = true
    · have hcnt := matches_countP ts nm ht0 ht1 hnm_prim htrn
      have hmatch : ∀ r ∈ ts, matchesName nm r = true →
          specMergedEntry p r = r ∧
            mergeEntry r sf = specMergedEntry (p ++ [JVal.obj sf]) r := by
        intro r hr hm
        have hrts : truthyName r = some nm :=
          matches_truthyName r nm (ht0 r hr) htrn hm
        obtain ⟨rf, rfl, hrname, _⟩ := truthyName_some r nm hrts
        have hfindp : List.find? (sourceMatches nm) p = none := by
          rcases hfp : List.find? (sourceMatches nm) p with _ | s'
          · rfl
          · have hs' := List.find?_some hfp
            have hmem := List.mem_of_find?_eq_some hfp
            rcases hq : truthyName s' with _ | nm'
            · rw [sourceMatches, hq] at hs'
              exact absurd hs' (by simp)
            · rw [sourceMatches, hq] at hs'
              obtain rfl := sEq_eq nm nm' hnm_prim hs'
              have hfalse := hps nm (List.mem_filterMap.mpr ⟨s', hmem, hq⟩) nm
                (by simp [hts])
              rw [sEq_refl nm hnm_prim] at hfalse
              exact absurd hfalse (by simp)
        have hsm : sourceMatches nm (JVal.obj sf) = true := by
          rw [sourceMatches, hts]
          exact sEq_refl nm hnm_prim
        constructor
        · simp [specMergedEntry, hrname, hfindp]
        · simp [specMergedEntry, hrname, mergeEntry, List.find?_append, hfindp,
            List.find?, hsm]
      have hno : ∀ r ∈ ts, matchesName nm r = false →
          specMergedEntry p r = specMergedEntry (p ++ [JVal.obj sf]) r := by
        intro r hr hm
        symm
        apply specMergedEntry_append_skip
        intro rv hrv
        rw [sourceMatches, hts]
        rw [matchesName, hrv] at hm
        exact hm
      obtain ⟨r0, hr0, hm0⟩ := hex
      have hex : ∃ r ∈ ts, matchesName nm r = true := ⟨r0, hr0, hm0⟩
      have happ : specAppends ts (JVal.obj sf) = false := by
        rw [specAppends, hts]
        cases hall : (ts.all fun x => !matchesName nm x)
        · exact hall
        · have := List.all_eq_true.mp hall r0 hr0
          rw [hm0] at this
          exact absurd this (by simp)
      have key := step_update nm sf (specMergedEntry p)
        (specMergedEntry (p ++ [JVal.obj sf])) (p.filter (specAppends ts)) ts
        hf hmatch hno hcnt hex
      rw [hunfold, key, List.filter_append]
      have : List.filter (specAppends ts) [JVal.obj sf] = [] := by
        simp [List.filter, happ]
      rw [this, List.append_nil]
    · have hall : ∀ r ∈ ts, matchesName nm r = false := by
        intro r hr
        by_contra h
        exact hex ⟨r, hr, by revert h; cases matchesName nm r <;> simp⟩
      have hnone : findIdxN (matchesName nm)
          (ts.map (specMergedEntry p) ++ p.filter (specAppends ts)) = none := by
        apply findIdxN_eq_none
        intro x hx
        rcases List.mem_append.mp hx with hx1 | hx2
        · obtain ⟨r, hr, rfl⟩ := List.mem_map.mp hx1
          rw [hf r hr]
          exact hall r hr
        · exact hap x hx2
      have happ : specAppends ts (JVal.obj sf) = true := by
        rw [specAppends, hts]
        rw [List.all_eq_true]
        intro r hr
        simp [hall r hr]
      have hmap : ∀ r ∈ ts,
          specMergedEntry (p ++ [JVal.obj sf]) r = specMergedEntry p r := by
        intro r hr
        apply specMergedEntry_append_skip
        intro rv hrv
        rw [sourceMatches, hts]
        have hm := hall r hr
        rw [matchesName, hrv] at hm
        exact hm
      rw [hunfold, hnone,
        map_congr_mem (specMergedEntry (p ++ [JVal.obj sf])) (specMergedEntry p)
          ts hmap,
        List.filter_append]
      have : List.filter (specAppends ts) [JVal.obj sf] = [JVal.obj sf] := by
        simp [List.filter, happ]
      rw [this, List.append_assoc]

/-! ## Folding all source entries -/

theorem mergeRewards_go (ts : List JVal)
    (ht0 : ∀ r ∈ ts, entryOk r = true)
    (ht1 : (ts.filterMap truthyName).Pairwise fun a b => sEq a b = false) :
    ∀ ss p : List JVal,
      (∀ x ∈ p ++ ss, entryOk x = true) →
      (((p ++ ss).filterMap truthyName).Pairwise fun a b => sEq a b = false) →
      List.foldl mergeOneReward
          (ts.map (specMergedEntry p) ++ p.filter (specAppends ts)) ss =
        ts.map (specMergedEntry (p ++ ss)) ++ (p ++ ss).filter (specAppends ts) := by
  intro ss
  induction ss with
  | nil =>
      intro p _ _
      simp
  | cons s ss' ih =>
      intro p h0 h1
      rw [List.foldl_cons]
      have hp0 : ∀ x ∈ p, entryOk x = true := fun x hx => h0 x (by simp [hx])
      have hs0 : entryOk s = true := h0 s (by simp)
      have hps : ∀ a ∈ p.filterMap truthyName, ∀ b ∈ (truthyName s).toList,
          sEq a b = false := by
        intro a ha b hb
        rcases hts : truthyName s with _ | nm
        · rw [hts] at hb
          exact absurd hb (by simp)
        · rw [hts] at hb
          obtain rfl : b = nm := by simpa using hb
          have h1' := h1
          rw [List.filterMap_append] at h1'
          refine (List.pairwise_append.mp h1').2.2 a ha b ?_
          rw [List.filterMap_cons, hts]
          simp
      rw [mergeOne_state ts p s ht0 ht1 hp0 hs0 hps]
      have h0' : ∀ x ∈ (p ++ [s]) ++ ss', entryOk x = true := by
        intro x hx
        apply h0
        rw [List.append_assoc] at hx
        simpa using hx
      have h1' : (((p ++ [s]) ++ ss').filterMap truthyName).Pairwise
          fun a b => sEq a b = false := by
        rw [List.append_assoc, List.singleton_append]
        exact h1
      rw [ih (p ++ [s]) h0' h1', List.append_assoc, List.singleton_append]

/-! ## C2: the rewards merge reconciles by name -/

/-- C2: with well-formed reward entries whose truthy names are distinct
within each list, `mergeRewards` yields exactly: each target entry in its
original position — shallowly overwritten by the fields of the source
entry whose `name` matches it, untouched when no source entry matches —
followed by the source entries whose `name` matches no target entry,
appended in source order (source entries without a truthy `name` are
dropped by the guard). -/
theorem mergeRewards_by_name (ts ss : List JVal)
    (ht0 : ∀ r ∈ ts, entryOk r = true)
    (hs0 : ∀ s ∈ ss, entryOk s = true)
    (ht1 : (ts.filterMap truthyName).Pairwise fun a b => sEq a b = false)
    (hs1 : (ss.filterMap truthyName).Pairwise fun a b => sEq a b = false) :
    mergeRewards ts ss =
      ts.map (specMergedEntry ss) ++ ss.filter (specAppends ts) := by
  have h := mergeRewards_go ts ht0 ht1 ss [] (by simpa using hs0)
    (by simpa using hs1)
  simp only [List.nil_append, List.filter_nil, List.append_nil] at h
  rw [map_congr_mem (specMergedEntry []) id ts (fun r _ => specMergedEntry_nil r),
    List.map_id] at h
  rw [mergeRewards]
  exact h

/-- Witness for C2: the spec's example — target `[X(xp 1)]` merged with
source `[X(xp 9), Y(xp 5)]` gives `[X(xp 9), Y(xp 5)]`. -/
theorem mergeRewards_by_name_witness :
    mergeRewards [JVal.obj [("name", JVal.str "X"), ("xp", JVal.num 1)]]
        [JVal.obj [("name", JVal.str "X"), ("xp", JVal.num 9)],
          JVal.obj [("name", JVal.str "Y"), ("xp", JVal.num 5)]] =
      [JVal.obj [("name", JVal.str "X"), ("xp", JVal.num 9)],
        JVal.obj [("name", JVal.str "Y"), ("xp", JVal.num 5)]] := by
  rw [mergeRewards_by_name _ _ (by decide) (by decide) (by decide) (by decide)]
  rfl

/-! ## C10: source entries without a truthy name are skipped -/

/-- C10: a non-null source reward entry whose `name` is absent or falsy is
ignored entirely by the rewards merge — the result equals the merge of
the source list with that entry removed.  (A `null` entry would instead
make JavaScript throw on the `.name` access, hence the non-null
hypothesis.) -/
theorem nameless_source_reward_ignored (t ss1 ss2 : List JVal) (r : JVal)
    (_hr : r ≠ JVal.null) (h : truthyName r = none) :
    mergeRewards t (ss1 ++ r :: ss2) = mergeRewards t (ss1 ++ ss2) := by
  rw [mergeRewards, mergeRewards, List.foldl_append, List.foldl_append,
    List.foldl_cons, mergeOne_skip _ r h]

/-- Witness for C10: an entry with an `xp` field but no `name` is dropped
from the merge. -/
theorem nameless_source_reward_ignored_witness :
    mergeRewards [JVal.obj [("name", JVal.str "X"), ("xp", JVal.num 1)]]
        ([] ++ JVal.obj [("xp", JVal.num 5)] ::
          [JVal.obj [("name", JVal.str "Y"), ("xp", JVal.num 5)]]) =
      mergeRewards [JVal.obj [("name", JVal.str "X"), ("xp", JVal.num 1)]]
        ([] ++ [JVal.obj [("name", JVal.str "Y"), ("xp", JVal.num 5)]]) :=
  nameless_source_reward_ignored _ _ _ _ (by simp) rfl
